import Mathlib

/-! Verification of `wrapper.cpp`, the binding layer of a native Node.js addon.

`wrapper.cpp` exposes the C function `sum` to the V8 host runtime: the callback
`FuncSum` reads two call arguments, coerces each with `Value::Int32Value`, adds them
with `sum` and stores `Number::New(isolate, result)` as the return value; `init`
registers the callback under the name `"sum"`.

The embedding has three layers:

* the host runtime operations that `wrapper.cpp` calls (V8 values, `Int32Value`,
  `ToChecked`, `Number::New`, the argument vector, the exports object);
* the native function `sum` of `my-func.c`;
* `FuncSum` and `init`, translated statement by statement.

A 32-bit `int` is an `Int` together with the range `[-2^31, 2^31 - 1]`; the range of
every native value is proved, not assumed.
-/

namespace native_addon_example

/-! ## Host runtime: numbers and execution context -/

/-- A host number (IEEE-754 binary64): not-a-number, the two infinities, or a finite value.
Finite values are carried as rationals, of which the binary64 values are a subset; the two
zeros are both `finite 0` (they coerce alike). -/
inductive Number where
  | nan
  | posInf
  | negInf
  | finite (q : ℚ)
  deriving DecidableEq

/-- Modelled from the spec: the "execution context handle" of the host runtime
(`v8::Context`, declared in the V8 headers, which are not among the sources): the
script-visible mutable state that host code run during a coercion can read and write, kept
as a list of integer cells. -/
structure Context where
  heap : List Int
  deriving DecidableEq

/-- The isolate (VM instance) with its current context. -/
structure Isolate where
  currentContext : Context
  deriving DecidableEq

/-- Counterpart of `isolate->GetCurrentContext()`. -/
def Isolate.GetCurrentContext (isolate : Isolate) : Context :=
  isolate.currentContext

/-- A primitive host value. -/
inductive Primitive where
  | undefined
  | null
  | boolean (b : Bool)
  | number (n : Number)
  | string (s : String)
  | symbol (description : String)
  | bigint (i : Int)
  deriving DecidableEq

/-- A host value: a primitive, or an object. Of an object only its conversion to a
primitive is kept (the net effect of `valueOf` and `toString`): script code that runs in
the context, may change it, and yields a primitive or throws (`none`). -/
inductive Value where
  | prim (p : Primitive)
  | object (toPrimitive : Context → Option Primitive × Context)

/-- The host value `undefined`. -/
def Value.undefined : Value := .prim .undefined

/-- Modelled from the spec: `v8::Maybe<T>` of the V8 headers, the result of a coercion
that "can itself fail": `Just` a value, or `Nothing` when an exception is pending. -/
abbrev Maybe (α : Type) := Option α

/-- The process-level failure raised by `ToChecked` on `Nothing`. -/
inductive FatalError where
  | toCheckedNothing
  deriving DecidableEq

/-- Modelled from the spec: `Maybe<T>::ToChecked()` of the V8 headers: the value, or on
`Nothing` a failure that "is not locally handled and propagates as a host-runtime-level
failure". -/
def Maybe.ToChecked {α : Type} : Maybe α → Except FatalError α
  | some a => .ok a
  | none => .error .toCheckedNothing

/-! ## Host runtime: numeric coercion -/

/-- Rounding to the nearest integer, ties to even. -/
def roundHalfEven (q : ℚ) : Int :=
  let f := ⌊q⌋
  let r := q - f
  if r < 1 / 2 then f
  else if 1 / 2 < r then f + 1
  else if f % 2 = 0 then f else f + 1

/-- The binary64 value nearest to a rational (53-bit significand, ties to even,
gradual underflow, overflow to infinity). -/
def roundToDouble (q : ℚ) : Number :=
  if q = 0 then .finite 0
  else
    let a := |q|
    let e := max (Int.log 2 a) (-1022)
    let ulp : ℚ := (2 : ℚ) ^ (e - 52)
    let r : ℚ := (roundHalfEven (a / ulp) : ℚ) * ulp
    if (2 : ℚ) ^ (1024 : Nat) ≤ r then (if q < 0 then .negInf else .posInf)
    else .finite (if q < 0 then -r else r)

/-- The characters of `StrWhiteSpaceChar` (white space and line terminators). -/
def isStrWhiteSpaceChar (c : Char) : Bool :=
  [0x09, 0x0A, 0x0B, 0x0C, 0x0D, 0x20, 0xA0, 0x1680, 0x2028, 0x2029, 0x202F, 0x205F,
    0x3000, 0xFEFF].contains c.toNat
    || (0x2000 ≤ c.toNat && c.toNat ≤ 0x200A)

/-- The value of a digit character in the given radix. -/
def digitValue (radix : Nat) (c : Char) : Option Nat :=
  let n := c.toNat
  let v :=
    if 48 ≤ n ∧ n ≤ 57 then some (n - 48)
    else if 97 ≤ n ∧ n ≤ 102 then some (n - 87)
    else if 65 ≤ n ∧ n ≤ 70 then some (n - 55)
    else none
  v.bind fun d => if d < radix then some d else none

/-- The value of a non-empty digit sequence in the given radix. -/
def digitsValue (radix : Nat) (cs : List Char) : Option Nat :=
  if cs.isEmpty then none
  else cs.foldl (fun acc c => acc.bind fun n => (digitValue radix c).map fun d => n * radix + d)
    (some 0)

/-- The mathematical value of a `StrUnsignedDecimalLiteral` other than `Infinity`:
digits with an optional fraction and an optional exponent part. -/
def parseUnsignedDecimal (cs : List Char) : Option ℚ :=
  let ip := cs.takeWhile Char.isDigit
  let r1 := cs.dropWhile Char.isDigit
  let fp := match r1 with
    | '.' :: r => r.takeWhile Char.isDigit
    | _ => []
  let r2 := match r1 with
    | '.' :: r => r.dropWhile Char.isDigit
    | _ => r1
  if ip.isEmpty && fp.isEmpty then none
  else
    let mant : ℚ := ((digitsValue 10 (ip ++ fp)).getD 0 : ℚ) / (10 : ℚ) ^ fp.length
    match r2 with
    | [] => some mant
    | e :: r3 =>
      if e = 'e' ∨ e = 'E' then
        match r3 with
        | '+' :: ds => (digitsValue 10 ds).map fun n => mant * (10 : ℚ) ^ (n : Int)
        | '-' :: ds => (digitsValue 10 ds).map fun n => mant * (10 : ℚ) ^ (-(n : Int))
        | ds => (digitsValue 10 ds).map fun n => mant * (10 : ℚ) ^ (n : Int)
      else none

/-- The number denoted by a `StrNumericLiteral`, if the characters form one. -/
def parseStrNumericLiteral (cs : List Char) : Option Number :=
  match cs with
  | '0' :: 'x' :: ds | '0' :: 'X' :: ds => (digitsValue 16 ds).map fun n => roundToDouble n
  | '0' :: 'o' :: ds | '0' :: 'O' :: ds => (digitsValue 8 ds).map fun n => roundToDouble n
  | '0' :: 'b' :: ds | '0' :: 'B' :: ds => (digitsValue 2 ds).map fun n => roundToDouble n
  | '-' :: ds =>
    if ds = "Infinity".data then some .negInf
    else (parseUnsignedDecimal ds).map fun q => roundToDouble (-q)
  | '+' :: ds =>
    if ds = "Infinity".data then some .posInf
    else (parseUnsignedDecimal ds).map roundToDouble
  | ds =>
    if ds = "Infinity".data then some .posInf
    else (parseUnsignedDecimal ds).map roundToDouble

/-- Host operation `StringToNumber`: white space is trimmed, the empty string is `0`, a
numeric literal is its value, anything else is not-a-number. -/
def StringToNumber (s : String) : Number :=
  let cs := ((s.data.dropWhile isStrWhiteSpaceChar).reverse.dropWhile
    isStrWhiteSpaceChar).reverse
  if cs.isEmpty then .finite 0
  else (parseStrNumericLiteral cs).getD .nan

/-- Host operation `ToNumber` on primitives; `none` is a thrown `TypeError`
(symbols and big integers do not convert). -/
def ToNumber : Primitive → Option Number
  | .undefined => some .nan
  | .null => some (.finite 0)
  | .boolean b => some (.finite (if b then 1 else 0))
  | .number n => some n
  | .string s => some (StringToNumber s)
  | .symbol _ => none
  | .bigint _ => none

/-- Host operation `truncate`: the integral part, `sign(q) * floor(abs(q))`. -/
def truncate (q : ℚ) : Int :=
  if q < 0 then -⌊-q⌋ else ⌊q⌋

/-- Host operation `ToInt32` on numbers: not-a-number and the infinities give `0`; a
finite number is truncated, taken modulo `2^32`, and values from `2^31` on are moved down
by `2^32`. -/
def ToInt32 : Number → Int
  | .nan => 0
  | .posInf => 0
  | .negInf => 0
  | .finite q =>
    let int32bit := truncate q % 2 ^ 32
    if 2 ^ 31 ≤ int32bit then int32bit - 2 ^ 32 else int32bit

/-- Modelled from the spec: `v8::Value::Int32Value(context)`, declared in the V8 headers
that `wrapper.cpp` includes and absent from the sources: "the host runtime's standard
numeric-coercion rule for the current execution context", which "can itself fail per
host-runtime semantics". A primitive is converted by `ToNumber` then `ToInt32`; an object
first runs its conversion in the context. The result is `Nothing` when an exception was
thrown; the context after the coercion is returned with it. -/
def Value.Int32Value (v : Value) (ctx : Context) : Maybe Int × Context :=
  match v with
  | .prim p => ((ToNumber p).map ToInt32, ctx)
  | .object toPrimitive =>
    let r := toPrimitive ctx
    ((r.1.bind ToNumber).map ToInt32, r.2)

/-- Host operation `ToNumber` on any value: a primitive converts directly; an object first
runs its conversion to a primitive in the context. The context after the conversion is
returned with the result. -/
def Value.ToNumber (v : Value) (ctx : Context) : Option Number × Context :=
  match v with
  | .prim p => (native_addon_example.ToNumber p, ctx)
  | .object toPrimitive =>
    let r := toPrimitive ctx
    (r.1.bind native_addon_example.ToNumber, r.2)

/-- Modelled from the spec: `v8::Number::New(isolate, value)`, "a numeric-value
construction operation (native integer → dynamic value)". The `int` argument converts to
binary64 exactly. -/
def Number.New (_isolate : Isolate) (value : Int) : Value :=
  .prim (.number (.finite (value : ℚ)))

/-! ## Host runtime: the call record and the exports object -/

/-- Modelled from the spec: `v8::FunctionCallbackInfo<Value>` of the V8 headers, "an opaque
invocation record from the host runtime carrying a variable-length, positionally-ordered
list of dynamic values and an execution context handle", with "a return-value slot". -/
structure FunctionCallbackInfo where
  values : List Value
  isolate : Isolate
  returnValue : Value

/-- Counterpart of `args.GetIsolate()`. -/
def FunctionCallbackInfo.GetIsolate (args : FunctionCallbackInfo) : Isolate :=
  args.isolate

/-- Modelled from the spec: `FunctionCallbackInfo::operator[]` of the V8 headers: the
argument at position `i`, and `undefined` for a position past the end of the argument
list (a "missing" argument). -/
def FunctionCallbackInfo.at (args : FunctionCallbackInfo) (i : Nat) : Value :=
  args.values.getD i Value.undefined

instance : GetElem FunctionCallbackInfo Nat Value (fun _ _ => True) where
  getElem args i _ := args.at i

/-- Counterpart of `args.GetReturnValue().Set(output)`. -/
def FunctionCallbackInfo.SetReturnValue (args : FunctionCallbackInfo) (output : Value) :
    FunctionCallbackInfo :=
  { args with returnValue := output }

/-- The native callback type `v8::FunctionCallback`; a call either completes with the
updated record or ends in a fatal error. -/
abbrev FunctionCallback := FunctionCallbackInfo → Except FatalError FunctionCallbackInfo

/-- A property of the exports object: a plain value, or a function created from a native
callback and carrying its name. -/
inductive Property where
  | data (v : Value)
  | function (name : String) (callback : FunctionCallback)

/-- Modelled from the spec: the exports object `Local<Object>` of the V8 headers, "the
module's exported-names table". -/
structure Object where
  properties : List (String × Property)

/-- Property lookup by name. -/
def Object.Get (o : Object) (key : String) : Option Property :=
  (o.properties.find? fun kv => kv.1 == key).map Prod.snd

/-- Property store: replaces the entry of that name, or adds one. -/
def Object.Set (o : Object) (key : String) (value : Property) : Object :=
  if (o.properties.any fun kv => kv.1 == key) then
    ⟨o.properties.map fun kv => if kv.1 == key then (key, value) else kv⟩
  else ⟨o.properties ++ [(key, value)]⟩

/-- Modelled from the spec: `NODE_SET_METHOD(recv, name, callback)` of `node.h`, absent from
the sources: it "registers this behavior under the public name" in "the module's
exported-names table": a function is made from the callback, named, and stored under the
name. -/
def NODE_SET_METHOD (recv : Object) (name : String) (callback : FunctionCallback) : Object :=
  recv.Set name (.function name callback)

/-! ## The native function -/

/-- Reduction of an integer to the 32-bit two-complement range `[-2^31, 2^31 - 1]`. -/
def wrapInt32 (z : Int) : Int :=
  (z + 2 ^ 31) % 2 ^ 32 - 2 ^ 31

/-- Modelled from the spec: `sum` of `my-func.c`, which `wrapper.cpp` includes and which is
absent from the sources: "given two native integers a, b, returns a + b as a native
integer"; on overflow the 32-bit representation "wraps". -/
def sum (a b : Int) : Int :=
  wrapInt32 (a + b)

/-! ## `wrapper.cpp` -/

/-- The wrapper `FuncSum`: coerces arguments 0 and 1 in turn, adds them with `sum`, wraps
the result in a host number and sets it as the return value. -/
def FuncSum (args : FunctionCallbackInfo) : Except FatalError FunctionCallbackInfo := do
  let isolate := args.GetIsolate
  let ctx := isolate.GetCurrentContext
  -- Fetches the call arguments and convert it into a int
  let ra := args[0].Int32Value ctx
  let a ← ra.1.ToChecked
  let rb := args[1].Int32Value ra.2
  let b ← rb.1.ToChecked
  -- Call our function and store the result
  let result := sum a b
  -- Wraps our result inside a v8 value
  let output := Number.New isolate result
  -- Set as the returned value (the record also carries the context as the coercions left it)
  pure ({ args with isolate := ⟨rb.2⟩ }.SetReturnValue output)

/-- The module initialiser `init`: binds the name `"sum"` to the wrapper. -/
def init (exports : Object) : Object :=
  NODE_SET_METHOD exports "sum" FuncSum

/-! ## Vocabulary of the statements -/

/-- The 32-bit signed range. -/
def IsInt32 (z : Int) : Prop :=
  -2 ^ 31 ≤ z ∧ z ≤ 2 ^ 31 - 1

instance (z : Int) : Decidable (IsInt32 z) := by
  unfold IsInt32; infer_instance

/-- A host number value holding an integer. -/
def Value.ofInt (z : Int) : Value :=
  .prim (.number (.finite (z : ℚ)))

/-- A host number value holding a rational. -/
def Value.ofRat (q : ℚ) : Value :=
  .prim (.number (.finite q))

/-- The host not-a-number value. -/
def Value.NaN : Value :=
  .prim (.number .nan)

/-- A host string value. -/
def Value.ofString (s : String) : Value :=
  .prim (.string s)

/-- The observable outcome of a call: the return value and the context left behind, or
the fatal error. -/
def outcome (r : Except FatalError FunctionCallbackInfo) : Except FatalError (Value × Context) :=
  r.map fun info => (info.returnValue, info.isolate.currentContext)

/-- Spec wording of the coercion: truncation toward zero. -/
def truncTowardZero (q : ℚ) : Int :=
  if 0 ≤ q then ⌊q⌋ else ⌈q⌉

/-- Spec wording of the coercion: "truncates toward zero and reduces modulo 2^32 into
[-2^31, 2^31 - 1]". -/
def ToInt32Spec (q : ℚ) : Int :=
  wrapInt32 (truncTowardZero q)


/-- A plain object without a conversion of its own (`{}`): the default conversion yields
the text `"[object Object]"` and leaves the context as it is. -/
def plainObject : Value :=
  .object fun ctx => (some (.string "[object Object]"), ctx)

/-- An object whose conversion yields the first heap cell and then increments the cell
(a `valueOf` of the shape `() => c++`). -/
def postIncrementObject : Value :=
  .object fun ctx =>
    (some (.number (.finite ((ctx.heap.headD 0 : Int) : ℚ))),
      ⟨(ctx.heap.headD 0 + 1) :: ctx.heap.tail⟩)

/-- An object whose conversion doubles the first heap cell and yields the new content
(a `valueOf` of the shape `() => c *= 2`). -/
def doublingObject : Value :=
  .object fun ctx =>
    (some (.number (.finite ((2 * ctx.heap.headD 0 : Int) : ℚ))),
      ⟨(2 * ctx.heap.headD 0) :: ctx.heap.tail⟩)

/-! ## Arithmetic of the 32-bit range -/

theorem wrapInt32_isInt32 (z : Int) : IsInt32 (wrapInt32 z) := by
  unfold IsInt32 wrapInt32
  omega

theorem wrapInt32_of_isInt32 {z : Int} (h : IsInt32 z) : wrapInt32 z = z := by
  unfold IsInt32 at h
  unfold wrapInt32
  omega

theorem truncate_eq_truncTowardZero (q : ℚ) : truncate q = truncTowardZero q := by
  unfold truncate truncTowardZero
  by_cases h : q < 0
  · rw [if_pos h, if_neg (not_le.mpr h), ← Int.ceil_neg, neg_neg]
  · rw [if_neg h, if_pos (not_lt.mp h)]

theorem ToInt32_finite (q : ℚ) : ToInt32 (.finite q) = ToInt32Spec q := by
  unfold ToInt32Spec wrapInt32
  rw [← truncate_eq_truncTowardZero]
  show (if 2 ^ 31 ≤ truncate q % 2 ^ 32 then truncate q % 2 ^ 32 - 2 ^ 32
    else truncate q % 2 ^ 32) = _
  split <;> omega

theorem ToInt32_isInt32 (n : Number) : IsInt32 (ToInt32 n) := by
  cases n with
  | finite q => rw [ToInt32_finite]; exact wrapInt32_isInt32 _
  | _ => unfold IsInt32; simp [ToInt32]

theorem truncate_intCast (z : Int) : truncate (z : ℚ) = z := by
  unfold truncate
  split
  · rw [← Int.cast_neg, Int.floor_intCast, neg_neg]
  · exact Int.floor_intCast z

theorem ToInt32_intCast (z : Int) : ToInt32 (.finite (z : ℚ)) = wrapInt32 z := by
  rw [ToInt32_finite, ToInt32Spec, ← truncate_eq_truncTowardZero, truncate_intCast]

/-! ## The coercion -/

theorem Int32Value_isInt32 {v : Value} {ctx : Context} {a : Int}
    (h : (v.Int32Value ctx).1 = some a) : IsInt32 a := by
  cases v with
  | prim p =>
    simp only [Value.Int32Value, Option.map_eq_some'] at h
    obtain ⟨n, -, rfl⟩ := h
    exact ToInt32_isInt32 n
  | object f =>
    simp only [Value.Int32Value, Option.map_eq_some'] at h
    obtain ⟨n, -, rfl⟩ := h
    exact ToInt32_isInt32 n

theorem Int32Value_eq_ToNumber (v : Value) (ctx : Context) :
    v.Int32Value ctx = ((v.ToNumber ctx).1.map ToInt32, (v.ToNumber ctx).2) := by
  cases v <;> rfl

theorem Int32Value_of_nan {v : Value} {ctx : Context} {a : Int}
    (h : (v.Int32Value ctx).1 = some a) (hnan : (v.ToNumber ctx).1 = some .nan) : a = 0 := by
  rw [Int32Value_eq_ToNumber, hnan] at h
  exact (Option.some.inj h).symm

theorem Int32Value_ofInt (z : Int) (ctx : Context) :
    (Value.ofInt z).Int32Value ctx = (some (wrapInt32 z), ctx) := by
  simp [Value.ofInt, Value.Int32Value, ToNumber, ToInt32_intCast]

theorem Int32Value_ofRat (q : ℚ) (ctx : Context) :
    (Value.ofRat q).Int32Value ctx = (some (ToInt32Spec q), ctx) := by
  simp [Value.ofRat, Value.Int32Value, ToNumber, ToInt32_finite]

theorem Int32Value_undefined (ctx : Context) :
    Value.undefined.Int32Value ctx = (some 0, ctx) := by
  simp [Value.undefined, Value.Int32Value, ToNumber, ToInt32]

/-! ## The wrapper, case by case -/

theorem FuncSum_ok (args : FunctionCallbackInfo) (a b : Int)
    (h0 : (args[0].Int32Value args.isolate.currentContext).1 = some a)
    (h1 : (args[1].Int32Value (args[0].Int32Value args.isolate.currentContext).2).1 = some b) :
    FuncSum args = .ok
      { args with
        isolate := ⟨(args[1].Int32Value (args[0].Int32Value args.isolate.currentContext).2).2⟩
        returnValue := Value.ofInt (sum a b) } := by
  simp only [FuncSum, FunctionCallbackInfo.GetIsolate, Isolate.GetCurrentContext, h0, h1,
    Maybe.ToChecked, FunctionCallbackInfo.SetReturnValue, Number.New, Value.ofInt]
  rfl

theorem FuncSum_error_first (args : FunctionCallbackInfo)
    (h0 : (args[0].Int32Value args.isolate.currentContext).1 = none) :
    FuncSum args = .error .toCheckedNothing := by
  simp only [FuncSum, FunctionCallbackInfo.GetIsolate, Isolate.GetCurrentContext, h0,
    Maybe.ToChecked]
  rfl

theorem FuncSum_error_second (args : FunctionCallbackInfo) (a : Int)
    (h0 : (args[0].Int32Value args.isolate.currentContext).1 = some a)
    (h1 : (args[1].Int32Value (args[0].Int32Value args.isolate.currentContext).2).1 = none) :
    FuncSum args = .error .toCheckedNothing := by
  simp only [FuncSum, FunctionCallbackInfo.GetIsolate, Isolate.GetCurrentContext, h0, h1,
    Maybe.ToChecked]
  rfl

theorem at_zero (v : Value) (vs : List Value) (i : Isolate) (r : Value) :
    (FunctionCallbackInfo.mk (v :: vs) i r)[0] = v := rfl

theorem at_one (v w : Value) (vs : List Value) (i : Isolate) (r : Value) :
    (FunctionCallbackInfo.mk (v :: w :: vs) i r)[1] = w := rfl

theorem at_one_missing (v : Value) (i : Isolate) (r : Value) :
    (FunctionCallbackInfo.mk [v] i r)[1] = Value.undefined := rfl


/-! ## The exports table -/

theorem find_map_replace (l : List (String × Property)) (key : String) (value : Property)
    (h : (l.any fun kv => kv.1 == key) = true) :
    ((l.map fun kv => if kv.1 == key then (key, value) else kv).find?
      fun kv => kv.1 == key) = some (key, value) := by
  induction l with
  | nil => simp at h
  | cons x xs ih =>
    rw [List.map_cons, List.find?_cons]
    cases hx : x.1 == key with
    | true => simp only [if_true, beq_self_eq_true]
    | false =>
      have hxs : (xs.any fun kv => kv.1 == key) = true := by
        rw [List.any_cons, hx] at h
        simpa using h
      simp only [Bool.false_eq_true, if_false, hx]
      exact ih hxs

theorem find_map_replace_other (l : List (String × Property)) (key other : String)
    (value : Property) (h : other ≠ key) :
    ((l.map fun kv => if kv.1 == key then (key, value) else kv).find?
        fun kv => kv.1 == other).map Prod.snd
      = (l.find? fun kv => kv.1 == other).map Prod.snd := by
  induction l with
  | nil => rfl
  | cons x xs ih =>
    rw [List.map_cons, List.find?_cons, List.find?_cons]
    cases hx : x.1 == key with
    | true =>
      have hxk : x.1 = key := by simpa using hx
      have h1 : (key == other) = false := by simpa using fun e => h e.symm
      have h2 : (x.1 == other) = false := by rw [hxk]; exact h1
      simp only [if_true, h1, h2]
      exact ih
    | false =>
      simp only [Bool.false_eq_true, if_false]
      cases ho : x.1 == other with
      | true => rfl
      | false => exact ih

theorem Object.Get_Set_self (o : Object) (key : String) (value : Property) :
    (o.Set key value).Get key = some value := by
  unfold Object.Set Object.Get
  by_cases h : (o.properties.any fun kv => kv.1 == key) = true
  · rw [if_pos h]
    simp only [find_map_replace _ _ _ h, Option.map_some']
  · rw [if_neg h]
    have hnone : (o.properties.find? fun kv => kv.1 == key) = none := by
      rw [List.find?_eq_none]
      intro x hx hk
      exact h (List.any_eq_true.mpr ⟨x, hx, hk⟩)
    simp [List.find?_append, hnone]

theorem Object.Get_Set_other (o : Object) (key other : String) (value : Property)
    (h : other ≠ key) : (o.Set key value).Get other = o.Get other := by
  unfold Object.Set Object.Get
  by_cases hany : (o.properties.any fun kv => kv.1 == key) = true
  · rw [if_pos hany]
    exact find_map_replace_other _ _ _ _ h
  · rw [if_neg hany]
    have h1 : (key == other) = false := by simpa using fun e => h e.symm
    simp [List.find?_append, List.find?, h1]

/-! ## Claims -/

/-- C1: for 32-bit integers `a` and `b` whose sum is a 32-bit integer, invoking `FuncSum`
with the argument list `(a, b)` completes and sets the return value to the number `a + b`,
leaving the context as it was. -/
theorem FuncSum_returns_sum (a b : Int) (ha : IsInt32 a) (hb : IsInt32 b)
    (hab : IsInt32 (a + b)) (isolate : Isolate) (rv : Value) :
    FuncSum ⟨[Value.ofInt a, Value.ofInt b], isolate, rv⟩
      = .ok ⟨[Value.ofInt a, Value.ofInt b], isolate, Value.ofInt (a + b)⟩ := by
  have h := FuncSum_ok ⟨[Value.ofInt a, Value.ofInt b], isolate, rv⟩ a b
    (by rw [at_zero, Int32Value_ofInt, wrapInt32_of_isInt32 ha])
    (by rw [at_zero, at_one, Int32Value_ofInt, Int32Value_ofInt, wrapInt32_of_isInt32 hb])
  rw [h, sum, wrapInt32_of_isInt32 hab]
  simp only [at_zero, at_one, Int32Value_ofInt]

/-- Witness of C1: `(2, 3)` returns `5` and `(-1, 1)` returns `0`. -/
theorem FuncSum_returns_sum_witness :
    FuncSum ⟨[Value.ofInt 2, Value.ofInt 3], ⟨⟨[]⟩⟩, Value.undefined⟩
        = .ok ⟨[Value.ofInt 2, Value.ofInt 3], ⟨⟨[]⟩⟩, Value.ofInt 5⟩
      ∧ FuncSum ⟨[Value.ofInt (-1), Value.ofInt 1], ⟨⟨[]⟩⟩, Value.undefined⟩
        = .ok ⟨[Value.ofInt (-1), Value.ofInt 1], ⟨⟨[]⟩⟩, Value.ofInt 0⟩ :=
  ⟨FuncSum_returns_sum 2 3 (by decide) (by decide) (by decide) ⟨⟨[]⟩⟩ Value.undefined,
   FuncSum_returns_sum (-1) 1 (by decide) (by decide) (by decide) ⟨⟨[]⟩⟩ Value.undefined⟩


/-- C2, counterexample: with the single argument `5` the call returns the number `5`,
which is not not-a-number; with a single symbol argument the call ends in a fatal
error. -/
theorem FuncSum_one_argument_counterexample :
    (FuncSum ⟨[Value.ofInt 5], ⟨⟨[]⟩⟩, Value.undefined⟩
        = .ok ⟨[Value.ofInt 5], ⟨⟨[]⟩⟩, Value.ofInt 5⟩
      ∧ Value.ofInt 5 ≠ Value.NaN)
    ∧ FuncSum ⟨[Value.prim (.symbol "s")], ⟨⟨[]⟩⟩, Value.undefined⟩
        = .error .toCheckedNothing := by
  refine ⟨⟨?_, ?_⟩, ?_⟩
  · have h := FuncSum_ok ⟨[Value.ofInt 5], ⟨⟨[]⟩⟩, Value.undefined⟩ 5 0
      (by rw [at_zero, Int32Value_ofInt]; rfl)
      (by rw [at_one_missing, Int32Value_undefined])
    rw [h]
    simp only [at_zero, at_one_missing, Int32Value_ofInt, Int32Value_undefined]
    rfl
  · simp [Value.ofInt, Value.NaN]
  · exact FuncSum_error_first _ rfl

/-- C2, amended: for an argument list of length exactly one whose argument coerces to the
native integer `a`, `FuncSum` completes without a fatal error and returns the number `a`
(the missing second argument is read as `undefined` and coerced to `0`), which is not
not-a-number. -/
theorem FuncSum_one_argument (v : Value) (isolate : Isolate) (rv : Value) (a : Int)
    (ctx : Context) (h : v.Int32Value isolate.currentContext = (some a, ctx)) :
    FuncSum ⟨[v], isolate, rv⟩ = .ok ⟨[v], ⟨ctx⟩, Value.ofInt a⟩
      ∧ Value.ofInt a ≠ Value.NaN := by
  constructor
  · have ha : IsInt32 a := Int32Value_isInt32 (congrArg Prod.fst h)
    have h2 := FuncSum_ok ⟨[v], isolate, rv⟩ a 0
      (by rw [at_zero, h])
      (by rw [at_one_missing, Int32Value_undefined])
    rw [h2, sum, add_zero, wrapInt32_of_isInt32 ha]
    simp only [at_zero, at_one_missing, Int32Value_undefined, h]
  · simp [Value.ofInt, Value.NaN]

/-- Witness of the amended C2: the single argument `7` gives the number `7`. -/
theorem FuncSum_one_argument_witness :
    FuncSum ⟨[Value.ofInt 7], ⟨⟨[]⟩⟩, Value.undefined⟩
        = .ok ⟨[Value.ofInt 7], ⟨⟨[]⟩⟩, Value.ofInt 7⟩
      ∧ Value.ofInt 7 ≠ Value.NaN :=
  FuncSum_one_argument (Value.ofInt 7) ⟨⟨[]⟩⟩ Value.undefined 7 ⟨[]⟩
    (by rw [Int32Value_ofInt]; rfl)

/-- C3, counterexample: with the textual arguments `("abc", "abc")` the call returns the
number `0`, which is not not-a-number; with two symbol arguments the call ends in a fatal
error. -/
theorem FuncSum_non_numeric_counterexample :
    (FuncSum ⟨[Value.ofString "abc", Value.ofString "abc"], ⟨⟨[]⟩⟩, Value.undefined⟩
        = .ok ⟨[Value.ofString "abc", Value.ofString "abc"], ⟨⟨[]⟩⟩, Value.ofInt 0⟩
      ∧ Value.ofInt 0 ≠ Value.NaN)
    ∧ FuncSum ⟨[Value.prim (.symbol "s"), Value.prim (.symbol "t")], ⟨⟨[]⟩⟩, Value.undefined⟩
        = .error .toCheckedNothing := by
  refine ⟨⟨?_, ?_⟩, ?_⟩
  · exact FuncSum_ok ⟨[Value.ofString "abc", Value.ofString "abc"], ⟨⟨[]⟩⟩, Value.undefined⟩
      0 0 (by rfl) (by rfl)
  · simp [Value.ofInt, Value.NaN]
  · exact FuncSum_error_first _ rfl

/-- C3, amended: for every argument list whose first two arguments, whatever their types
(text, booleans, `null`, `undefined`, objects, numbers), coerce successfully to native
integers `a` and `b`, `FuncSum` completes without a fatal error and returns the number
`sum a b`, an integer of the 32-bit range and not not-a-number; an argument whose
conversion to number is not-a-number coerces to `0`, so that `("abc", "abc")` returns
`0`. -/
theorem FuncSum_non_numeric (v0 v1 : Value) (rest : List Value) (isolate : Isolate)
    (rv : Value) (a b : Int) (ctx1 ctx2 : Context)
    (h0 : v0.Int32Value isolate.currentContext = (some a, ctx1))
    (h1 : v1.Int32Value ctx1 = (some b, ctx2)) :
    FuncSum ⟨v0 :: v1 :: rest, isolate, rv⟩
        = .ok ⟨v0 :: v1 :: rest, ⟨ctx2⟩, Value.ofInt (sum a b)⟩
      ∧ IsInt32 (sum a b)
      ∧ Value.ofInt (sum a b) ≠ Value.NaN
      ∧ ((v0.ToNumber isolate.currentContext).1 = some .nan → a = 0)
      ∧ ((v1.ToNumber ctx1).1 = some .nan → b = 0) := by
  refine ⟨?_, wrapInt32_isInt32 _, ?_, ?_, ?_⟩
  · have h := FuncSum_ok ⟨v0 :: v1 :: rest, isolate, rv⟩ a b
      (by rw [at_zero, h0])
      (by rw [at_zero, at_one, h0, h1])
    rw [h]
    simp only [at_zero, at_one, h0, h1]
  · simp [Value.ofInt, Value.NaN]
  · exact Int32Value_of_nan (congrArg Prod.fst h0)
  · exact Int32Value_of_nan (congrArg Prod.fst h1)

/-- Witness of the amended C3: the texts `("abc", "abc")` return `0`, and so do two plain
objects followed by an extra argument. -/
theorem FuncSum_non_numeric_witness :
    FuncSum ⟨[Value.ofString "abc", Value.ofString "abc"], ⟨⟨[]⟩⟩, Value.undefined⟩
        = .ok ⟨[Value.ofString "abc", Value.ofString "abc"], ⟨⟨[]⟩⟩, Value.ofInt 0⟩
      ∧ FuncSum ⟨[plainObject, plainObject, Value.ofInt 9], ⟨⟨[4]⟩⟩, Value.undefined⟩
        = .ok ⟨[plainObject, plainObject, Value.ofInt 9], ⟨⟨[4]⟩⟩, Value.ofInt 0⟩ :=
  ⟨(FuncSum_non_numeric (Value.ofString "abc") (Value.ofString "abc") [] ⟨⟨[]⟩⟩
      Value.undefined 0 0 ⟨[]⟩ ⟨[]⟩ (by rfl) (by rfl)).1,
   (FuncSum_non_numeric plainObject plainObject [Value.ofInt 9] ⟨⟨[4]⟩⟩
      Value.undefined 0 0 ⟨[4]⟩ ⟨[4]⟩ (by rfl) (by rfl)).1⟩

/-- C4: after `init exports` the exports table maps the name `"sum"` to the function made
from `FuncSum`, and every other name has the entry it had before (none, if it had none). -/
theorem init_registers_sum (exports : Object) :
    (init exports).Get "sum" = some (.function "sum" FuncSum)
      ∧ ∀ key : String, key ≠ "sum" → (init exports).Get key = exports.Get key := by
  unfold init NODE_SET_METHOD
  exact ⟨Object.Get_Set_self _ _ _, fun key hkey => Object.Get_Set_other _ _ _ _ hkey⟩

/-- Witness of C4: an exports table that already holds another name. -/
theorem init_registers_sum_witness :
    (init ⟨[("version", .data (Value.ofInt 1))]⟩).Get "sum" = some (.function "sum" FuncSum)
      ∧ (init ⟨[("version", .data (Value.ofInt 1))]⟩).Get "version"
        = (Object.mk [("version", .data (Value.ofInt 1))]).Get "version" :=
  ⟨(init_registers_sum ⟨[("version", .data (Value.ofInt 1))]⟩).1,
   (init_registers_sum ⟨[("version", .data (Value.ofInt 1))]⟩).2 "version" (by decide)⟩

/-- C5: `FuncSum` ends in the fatal error, setting no return value, exactly when the
coercion of argument 0 yields no value or the coercion of argument 1 (in the context left
by the first coercion) yields no value; when both yield values `a` and `b` the call
completes and sets the return value to the number `sum a b`. -/
theorem FuncSum_fatal_iff (args : FunctionCallbackInfo) :
    (FuncSum args = .error .toCheckedNothing
        ↔ (args[0].Int32Value args.isolate.currentContext).1 = none
          ∨ (args[1].Int32Value (args[0].Int32Value args.isolate.currentContext).2).1 = none)
      ∧ ∀ a b : Int, (args[0].Int32Value args.isolate.currentContext).1 = some a →
          (args[1].Int32Value (args[0].Int32Value args.isolate.currentContext).2).1 = some b →
          FuncSum args = .ok
            { args with
              isolate :=
                ⟨(args[1].Int32Value (args[0].Int32Value args.isolate.currentContext).2).2⟩
              returnValue := Value.ofInt (sum a b) } := by
  refine ⟨⟨fun herr => ?_, fun h => ?_⟩, fun a b h0 h1 => FuncSum_ok args a b h0 h1⟩
  · cases h0 : (args[0].Int32Value args.isolate.currentContext).1 with
    | none => exact Or.inl rfl
    | some a =>
      cases h1 : (args[1].Int32Value (args[0].Int32Value args.isolate.currentContext).2).1 with
      | none => exact Or.inr rfl
      | some b =>
        rw [FuncSum_ok args a b h0 h1] at herr
        cases herr
  · cases h0 : (args[0].Int32Value args.isolate.currentContext).1 with
    | none => exact FuncSum_error_first args h0
    | some a =>
      rcases h with h | h
      · rw [h0] at h
        cases h
      · exact FuncSum_error_second args a h0 h

/-- Witness of C5: `(2, 3)` completes with `5`; a symbol in position 1 is fatal. -/
theorem FuncSum_fatal_iff_witness :
    FuncSum ⟨[Value.ofInt 2, Value.ofInt 3], ⟨⟨[]⟩⟩, Value.undefined⟩
        = .ok ⟨[Value.ofInt 2, Value.ofInt 3], ⟨⟨[]⟩⟩, Value.ofInt (sum 2 3)⟩
      ∧ FuncSum ⟨[Value.ofInt 2, Value.prim (.symbol "s")], ⟨⟨[]⟩⟩, Value.undefined⟩
        = .error .toCheckedNothing :=
  ⟨(FuncSum_fatal_iff ⟨[Value.ofInt 2, Value.ofInt 3], ⟨⟨[]⟩⟩, Value.undefined⟩).2 2 3
      (by rw [at_zero, Int32Value_ofInt]; rfl)
      (by rw [at_zero, at_one, Int32Value_ofInt, Int32Value_ofInt]; rfl),
   (FuncSum_fatal_iff
      ⟨[Value.ofInt 2, Value.prim (.symbol "s")], ⟨⟨[]⟩⟩, Value.undefined⟩).1.2
      (Or.inr rfl)⟩

/-- C6: `FuncSum` reads exactly positions 0 and 1, unconditionally and without an arity
check, a missing position being read as `undefined`. For every invocation record: the
call is fatal when the coercion of position 0 yields no value, and when that of position
1 (in the context left by the first) yields no value; when they yield `a` and `b` the
call returns the number `sum a b` and leaves the context as the second coercion left it;
a position past the end of the list reads as `undefined`. Hence two records that agree
at positions 0 and 1 and run in the same context have the same outcome, whatever their
lengths, further arguments and initial return-value slots. -/
theorem FuncSum_reads_two_positions (args1 args2 : FunctionCallbackInfo)
    (h0 : args1[0] = args2[0]) (h1 : args1[1] = args2[1])
    (hiso : args1.isolate = args2.isolate) :
    outcome (FuncSum args1) = outcome (FuncSum args2)
      ∧ ((args1[0].Int32Value args1.isolate.currentContext).1 = none →
          outcome (FuncSum args1) = .error .toCheckedNothing)
      ∧ (∀ a : Int, (args1[0].Int32Value args1.isolate.currentContext).1 = some a →
          (args1[1].Int32Value (args1[0].Int32Value args1.isolate.currentContext).2).1 = none →
          outcome (FuncSum args1) = .error .toCheckedNothing)
      ∧ (∀ a b : Int, (args1[0].Int32Value args1.isolate.currentContext).1 = some a →
          (args1[1].Int32Value (args1[0].Int32Value args1.isolate.currentContext).2).1
            = some b →
          outcome (FuncSum args1) = .ok (Value.ofInt (sum a b),
            (args1[1].Int32Value (args1[0].Int32Value args1.isolate.currentContext).2).2))
      ∧ (∀ i : Nat, args1.values.length ≤ i → args1[i] = Value.undefined) := by
  have char : ∀ args : FunctionCallbackInfo,
      outcome (FuncSum args)
        = match (args[0].Int32Value args.isolate.currentContext).1 with
          | none => .error .toCheckedNothing
          | some a =>
            match (args[1].Int32Value (args[0].Int32Value args.isolate.currentContext).2).1 with
            | none => .error .toCheckedNothing
            | some b => .ok (Value.ofInt (sum a b),
                (args[1].Int32Value (args[0].Int32Value args.isolate.currentContext).2).2) := by
    intro args
    cases h0 : (args[0].Int32Value args.isolate.currentContext).1 with
    | none => rw [FuncSum_error_first args h0]; rfl
    | some a =>
      cases h1 : (args[1].Int32Value (args[0].Int32Value args.isolate.currentContext).2).1 with
      | none => rw [FuncSum_error_second args a h0 h1]; rfl
      | some b => rw [FuncSum_ok args a b h0 h1]; rfl
  refine ⟨?_, fun hn => ?_, fun a ha hn => ?_, fun a b ha hb => ?_, fun i hi => ?_⟩
  · rw [char args1, char args2, h0, h1, hiso]
  · rw [char args1, hn]
  · rw [char args1, ha, hn]
  · rw [char args1, ha, hb]
  · show args1.values.getD i Value.undefined = Value.undefined
    rw [List.getD_eq_getElem?_getD, List.getElem?_eq_none hi]
    rfl

/-- Witness of C6: the one-element list `(5)` has the outcome of `(5, undefined, "abc")`,
and it is the number `5`: the missing position 1 was read, as `undefined`. -/
theorem FuncSum_reads_two_positions_witness :
    outcome (FuncSum ⟨[Value.ofInt 5], ⟨⟨[1]⟩⟩, Value.undefined⟩)
        = outcome (FuncSum ⟨[Value.ofInt 5, Value.undefined, Value.ofString "abc"], ⟨⟨[1]⟩⟩,
            Value.ofInt 9⟩)
      ∧ outcome (FuncSum ⟨[Value.ofInt 5], ⟨⟨[1]⟩⟩, Value.undefined⟩)
        = .ok (Value.ofInt 5, ⟨[1]⟩) :=
  ⟨(FuncSum_reads_two_positions ⟨[Value.ofInt 5], ⟨⟨[1]⟩⟩, Value.undefined⟩
      ⟨[Value.ofInt 5, Value.undefined, Value.ofString "abc"], ⟨⟨[1]⟩⟩, Value.ofInt 9⟩
      rfl rfl rfl).1,
   (FuncSum_reads_two_positions ⟨[Value.ofInt 5], ⟨⟨[1]⟩⟩, Value.undefined⟩
      ⟨[Value.ofInt 5, Value.undefined, Value.ofString "abc"], ⟨⟨[1]⟩⟩, Value.ofInt 9⟩
      rfl rfl rfl).2.2.2.1 5 0
      (by rw [at_zero, Int32Value_ofInt]; rfl)
      (by rw [at_one_missing, Int32Value_undefined])⟩

/-- C7: every finite numeric argument is coerced by truncation toward zero followed by
reduction modulo `2^32` into the 32-bit signed range, with no range validation: for all
finite `q1` and `q2` the call returns `sum (ToInt32Spec q1) (ToInt32Spec q2)`; in
particular `(2.7, 3.9)` returns `5` and `(2^32 + 2, 3)` returns `5`. -/
theorem FuncSum_truncating_coercion :
    (∀ (q1 q2 : ℚ) (isolate : Isolate) (rv : Value),
        FuncSum ⟨[Value.ofRat q1, Value.ofRat q2], isolate, rv⟩
          = .ok ⟨[Value.ofRat q1, Value.ofRat q2], isolate,
              Value.ofInt (sum (ToInt32Spec q1) (ToInt32Spec q2))⟩)
      ∧ (∀ (isolate : Isolate) (rv : Value),
        FuncSum ⟨[Value.ofRat (27 / 10), Value.ofRat (39 / 10)], isolate, rv⟩
          = .ok ⟨[Value.ofRat (27 / 10), Value.ofRat (39 / 10)], isolate, Value.ofInt 5⟩)
      ∧ (∀ (isolate : Isolate) (rv : Value),
        FuncSum ⟨[Value.ofInt (2 ^ 32 + 2), Value.ofInt 3], isolate, rv⟩
          = .ok ⟨[Value.ofInt (2 ^ 32 + 2), Value.ofInt 3], isolate, Value.ofInt 5⟩) := by
  have general : ∀ (q1 q2 : ℚ) (isolate : Isolate) (rv : Value),
      FuncSum ⟨[Value.ofRat q1, Value.ofRat q2], isolate, rv⟩
        = .ok ⟨[Value.ofRat q1, Value.ofRat q2], isolate,
            Value.ofInt (sum (ToInt32Spec q1) (ToInt32Spec q2))⟩ := by
    intro q1 q2 isolate rv
    have h := FuncSum_ok ⟨[Value.ofRat q1, Value.ofRat q2], isolate, rv⟩
      (ToInt32Spec q1) (ToInt32Spec q2)
      (by rw [at_zero, Int32Value_ofRat])
      (by rw [at_zero, at_one, Int32Value_ofRat, Int32Value_ofRat])
    rw [h]
    simp only [at_zero, at_one, Int32Value_ofRat]
  refine ⟨general, fun isolate rv => ?_, fun isolate rv => ?_⟩
  · have h27 : ToInt32Spec (27 / 10) = 2 := by
      have hf : ⌊(27 / 10 : ℚ)⌋ = 2 := by
        rw [Int.floor_eq_iff]; norm_num
      unfold ToInt32Spec truncTowardZero
      rw [if_pos (by norm_num), hf]
      decide
    have h39 : ToInt32Spec (39 / 10) = 3 := by
      have hf : ⌊(39 / 10 : ℚ)⌋ = 3 := by
        rw [Int.floor_eq_iff]; norm_num
      unfold ToInt32Spec truncTowardZero
      rw [if_pos (by norm_num), hf]
      decide
    have h := general (27 / 10) (39 / 10) isolate rv
    rw [h27, h39] at h
    exact h
  · have hbig : ToInt32Spec (((2 ^ 32 + 2 : Int) : ℚ)) = 2 := by
      rw [ToInt32Spec, ← truncate_eq_truncTowardZero, truncate_intCast]
      decide
    have h3 : ToInt32Spec (((3 : Int) : ℚ)) = 3 := by
      rw [ToInt32Spec, ← truncate_eq_truncTowardZero, truncate_intCast]
      decide
    have h := general ((2 ^ 32 + 2 : Int) : ℚ) ((3 : Int) : ℚ) isolate rv
    rw [hbig, h3] at h
    exact h

/-- C8: the addition is not guarded against overflow: for 32-bit integers `a` and `b`
whose mathematical sum is outside the 32-bit range the call still completes and returns
the wrapped sum (`a + b - 2^32` above the range, `a + b + 2^32` below it), which is in the
32-bit range and differs from the mathematical sum. -/
theorem FuncSum_overflow_wraps (a b : Int) (ha : IsInt32 a) (hb : IsInt32 b)
    (hab : ¬ IsInt32 (a + b)) (isolate : Isolate) (rv : Value) :
    FuncSum ⟨[Value.ofInt a, Value.ofInt b], isolate, rv⟩
        = .ok ⟨[Value.ofInt a, Value.ofInt b], isolate,
            Value.ofInt (if 2 ^ 31 ≤ a + b then a + b - 2 ^ 32 else a + b + 2 ^ 32)⟩
      ∧ IsInt32 (if 2 ^ 31 ≤ a + b then a + b - 2 ^ 32 else a + b + 2 ^ 32)
      ∧ (if 2 ^ 31 ≤ a + b then a + b - 2 ^ 32 else a + b + 2 ^ 32) ≠ a + b := by
  have hs : sum a b = if 2 ^ 31 ≤ a + b then a + b - 2 ^ 32 else a + b + 2 ^ 32 := by
    unfold IsInt32 at ha hb hab
    unfold sum wrapInt32
    split <;> omega
  refine ⟨?_, ?_, ?_⟩
  · have h := FuncSum_ok ⟨[Value.ofInt a, Value.ofInt b], isolate, rv⟩ a b
      (by rw [at_zero, Int32Value_ofInt, wrapInt32_of_isInt32 ha])
      (by rw [at_zero, at_one, Int32Value_ofInt, Int32Value_ofInt, wrapInt32_of_isInt32 hb])
    rw [h, hs]
    simp only [at_zero, at_one, Int32Value_ofInt]
  · rw [← hs]
    exact wrapInt32_isInt32 _
  · unfold IsInt32 at hab
    split <;> omega

/-- Witness of C8: `(2^31 - 1, 1)` returns `-2^31`. -/
theorem FuncSum_overflow_wraps_witness :
    FuncSum ⟨[Value.ofInt (2 ^ 31 - 1), Value.ofInt 1], ⟨⟨[]⟩⟩, Value.undefined⟩
      = .ok ⟨[Value.ofInt (2 ^ 31 - 1), Value.ofInt 1], ⟨⟨[]⟩⟩, Value.ofInt (-2 ^ 31)⟩ :=
  (FuncSum_overflow_wraps (2 ^ 31 - 1) 1 (by decide) (by decide) (by decide) ⟨⟨[]⟩⟩
    Value.undefined).1

/-- C9: whenever `FuncSum` completes, on any invocation record, the return value it has
set is a number holding an integer of the 32-bit signed range; it is not not-a-number and
not an infinity. -/
theorem FuncSum_return_is_int32 (args info : FunctionCallbackInfo)
    (h : FuncSum args = .ok info) :
    ∃ n : Int, IsInt32 n ∧ info.returnValue = Value.ofInt n
      ∧ info.returnValue ≠ Value.NaN
      ∧ info.returnValue ≠ .prim (.number .posInf)
      ∧ info.returnValue ≠ .prim (.number .negInf) := by
  cases h0 : (args[0].Int32Value args.isolate.currentContext).1 with
  | none =>
    rw [FuncSum_error_first args h0] at h
    cases h
  | some a =>
    cases h1 : (args[1].Int32Value (args[0].Int32Value args.isolate.currentContext).2).1 with
    | none =>
      rw [FuncSum_error_second args a h0 h1] at h
      cases h
    | some b =>
      rw [FuncSum_ok args a b h0 h1] at h
      injection h with h
      subst h
      refine ⟨sum a b, wrapInt32_isInt32 _, rfl, ?_, ?_, ?_⟩ <;> simp [Value.ofInt, Value.NaN]

/-- Witness of C9: the call on `("abc", "abc")` completes, with the integer `0`. -/
theorem FuncSum_return_is_int32_witness :
    ∃ n : Int, IsInt32 n ∧ Value.ofInt 0 = Value.ofInt n
      ∧ Value.ofInt 0 ≠ Value.NaN
      ∧ Value.ofInt 0 ≠ .prim (.number .posInf)
      ∧ Value.ofInt 0 ≠ .prim (.number .negInf) :=
  FuncSum_return_is_int32
    ⟨[Value.ofString "abc", Value.ofString "abc"], ⟨⟨[]⟩⟩, Value.undefined⟩
    ⟨[Value.ofString "abc", Value.ofString "abc"], ⟨⟨[]⟩⟩, Value.ofInt 0⟩
    (FuncSum_ok _ 0 0 (by rfl) (by rfl))

/-- C10, counterexample: in the context whose cell holds `1`, both coercions of the
post-increment object and of the doubling object succeed in either order, yet the call
on `(x, y)` returns `5` and the call on `(y, x)` returns `4`. -/
theorem FuncSum_not_commutative :
    outcome (FuncSum ⟨[postIncrementObject, doublingObject], ⟨⟨[1]⟩⟩, Value.undefined⟩)
        = .ok (Value.ofInt 5, ⟨[4]⟩)
      ∧ outcome (FuncSum ⟨[doublingObject, postIncrementObject], ⟨⟨[1]⟩⟩, Value.undefined⟩)
        = .ok (Value.ofInt 4, ⟨[3]⟩)
      ∧ Value.ofInt 5 ≠ Value.ofInt 4 := by
  have hcast : ∀ z : Int, IsInt32 z → some (ToInt32 (.finite (z : ℚ))) = some z := by
    intro z hz
    rw [ToInt32_intCast, wrapInt32_of_isInt32 hz]
  refine ⟨?_, ?_, ?_⟩
  · rw [FuncSum_ok ⟨[postIncrementObject, doublingObject], ⟨⟨[1]⟩⟩, Value.undefined⟩ 1 4
      (hcast 1 (by decide)) (hcast 4 (by decide))]
    rfl
  · rw [FuncSum_ok ⟨[doublingObject, postIncrementObject], ⟨⟨[1]⟩⟩, Value.undefined⟩ 2 2
      (hcast 2 (by decide)) (hcast 2 (by decide))]
    rfl
  · simp [Value.ofInt]

/-- C10, amended: for values `x` and `y` whose coercions succeed and leave the execution
context unchanged (every primitive that converts, every object whose conversion has no
side effect), the calls on `(x, y)` and on `(y, x)` complete with the same number. -/
theorem FuncSum_comm_of_pure (x y : Value) (isolate : Isolate) (rv1 rv2 : Value) (a b : Int)
    (hx : x.Int32Value isolate.currentContext = (some a, isolate.currentContext))
    (hy : y.Int32Value isolate.currentContext = (some b, isolate.currentContext)) :
    ∃ n : Int, FuncSum ⟨[x, y], isolate, rv1⟩ = .ok ⟨[x, y], isolate, Value.ofInt n⟩
      ∧ FuncSum ⟨[y, x], isolate, rv2⟩ = .ok ⟨[y, x], isolate, Value.ofInt n⟩ := by
  refine ⟨sum a b, ?_, ?_⟩
  · rw [FuncSum_ok ⟨[x, y], isolate, rv1⟩ a b (by rw [at_zero, hx])
      (by rw [at_zero, at_one, hx, hy])]
    simp only [at_zero, at_one, hx, hy]
  · rw [FuncSum_ok ⟨[y, x], isolate, rv2⟩ b a (by rw [at_zero, hy])
      (by rw [at_zero, at_one, hy, hx])]
    simp only [at_zero, at_one, hx, hy, sum, add_comm]

/-- Witness of the amended C10: `(2, "abc")` and `("abc", 2)`. -/
theorem FuncSum_comm_of_pure_witness :
    ∃ n : Int,
      FuncSum ⟨[Value.ofInt 2, Value.ofString "abc"], ⟨⟨[]⟩⟩, Value.undefined⟩
          = .ok ⟨[Value.ofInt 2, Value.ofString "abc"], ⟨⟨[]⟩⟩, Value.ofInt n⟩
        ∧ FuncSum ⟨[Value.ofString "abc", Value.ofInt 2], ⟨⟨[]⟩⟩, Value.undefined⟩
          = .ok ⟨[Value.ofString "abc", Value.ofInt 2], ⟨⟨[]⟩⟩, Value.ofInt n⟩ :=
  FuncSum_comm_of_pure (Value.ofInt 2) (Value.ofString "abc") ⟨⟨[]⟩⟩ Value.undefined
    Value.undefined 2 0 (by rw [Int32Value_ofInt]; rfl) (by rfl)

end native_addon_example
